import Mathlib

/-!
Shallow embedding of the repository `wharton/DataframeConversionValidator`
(file `src/DFCV.py`), a comparator between a `before` and an `after` Spark
dataframe that detects rows where a column-type conversion introduced nulls.

Modelling decisions:
* A dataframe is an ordered list of column names together with a list of rows;
  each row is a list of cells aligned with the column list.  A cell is
  `Option Int`: `none` is SQL `null`.  (Cell payloads other than integers play
  no role in the comparator: only nullness and primary-key equality matter.)
* Spark rejects references to duplicate column names, so valid inputs have
  distinct column names; the association-list lookups below agree with the
  Python dictionaries on such inputs.
* The fallible construction `__init__` is embedded as an `Except`-returning
  function.  Error values name the Python exception class raised at the
  corresponding program point: `missingKey` for the explicit
  `raise LookupError`, `keyError` for the `KeyError` raised by the
  `self.nulls_after_df[colname]` dictionary subscript, `typeError` for the
  `TypeError` raised by `functools.reduce(add, [])` on an empty expression
  list, and `analysisError` for an `AnalysisException` raised by the Spark
  engine itself (join on a column the other side lacks).
-/

namespace DFCV

/-- A dataframe cell; `none` models SQL `null`. -/
abbrev Cell := Option Int

/-- A dataframe: ordered column names plus rows of cells aligned with them. -/
structure DataFrame where
  cols : List String
  rows : List (List Cell)
deriving Repr, DecidableEq

/-- Resolve column `c` of a row: `none` when `c` is absent from the schema,
`some cell` otherwise. -/
def getCell (cols : List String) (row : List Cell) (c : String) : Option Cell :=
  (cols.zip row).lookup c

/-- Embeds `F.col(c).isNull()`: the cell resolved for `c` is SQL null. -/
def isNullAt (cols : List String) (row : List Cell) (c : String) : Bool :=
  match getCell cols row c with
  | some none => true
  | _ => false

/-- Number of rows of `df` whose cell in column `c` is null; the value that
`count_nulls` computes for column `c`. -/
def nullCount (df : DataFrame) (c : String) : Nat :=
  df.rows.countP (fun r => isNullAt df.cols r c)

/-- Embeds `count_nulls` (src/DFCV.py line 44) composed with the
`.collect()[0].asDict()` of `__init__`: the dictionary sending each column of
`df` to its null count, as an association list in column order. -/
def count_nulls (df : DataFrame) : List (String × Nat) :=
  df.cols.map (fun c => (c, nullCount df c))

/-- The Python exception classes the constructor can raise, named by the
program point that raises them (see module comment). -/
inductive DFCVError where
  | missingKey
  | keyError
  | typeError
  | analysisError
deriving Repr, DecidableEq

/-- Embeds the namedtuple `ColumnDifference` (src/DFCV.py line 34). -/
structure ColumnDifference where
  column_name : String
  difference : Int
deriving Repr, DecidableEq

/-- Embeds line 102 of src/DFCV.py: walk the canonical columns in order and
compute `nulls_after[col] - nulls_before[col]`; a missing dictionary key
raises `KeyError` at the first offending column, exactly as the Python
subscript does. -/
def computeDeltas (na nb : List (String × Nat)) :
    List String → Except DFCVError (List ColumnDifference)
  | [] => Except.ok []
  | c :: rest =>
    match na.lookup c, nb.lookup c with
    | some x, some y =>
      match computeDeltas na nb rest with
      | Except.ok ds => Except.ok (⟨c, (x : Int) - (y : Int)⟩ :: ds)
      | Except.error e => Except.error e
    | _, _ => Except.error DFCVError.keyError

/-- One row of the inner join of `before` and `after` on the primary key:
the shared (necessarily non-null) key value, the `before`-side row and the
`after`-side row.  Mirrors
`before_df.alias("left").join(after_df.alias("right"), on=pk, how="inner")`. -/
structure JoinedRow where
  keyVal : Int
  leftRow : List Cell
  rightRow : List Cell
deriving Repr, DecidableEq

/-- Extract the primary-key value of a row: `some x` when the cell resolves
and is non-null, `none` otherwise.  Spark equality joins never match null
keys, so only `some` values participate in the join. -/
def pkOf (cols : List String) (row : List Cell) (pk : String) : Option Int :=
  match getCell cols row pk with
  | some (some x) => some x
  | _ => none

/-- Spark inner equi-join on `pk`, one left row at a time: each left row with
a non-null key is paired with every right row carrying the same key value
(no deduplication). -/
def joinRows (bcols acols : List String) (pk : String) (arows : List (List Cell)) :
    List (List Cell) → List JoinedRow
  | [] => []
  | r1 :: rest =>
    (match pkOf bcols r1 pk with
     | some x =>
       (arows.filter (fun r2 => decide (pkOf acols r2 pk = some x))).map
         (fun r2 => ⟨x, r1, r2⟩)
     | none => []) ++ joinRows bcols acols pk arows rest

/-- Embeds the join of src/DFCV.py line 107. -/
def innerJoin (before after : DataFrame) (pk : String) : List JoinedRow :=
  joinRows before.cols after.cols pk after.rows before.rows

/-- Embeds the int cast of `F.col(colname).isNull()`: 1 when the cell is null,
0 otherwise. -/
def indicator (cols : List String) (row : List Cell) (c : String) : Int :=
  if isNullAt cols row c then 1 else 0

/-- Embeds `reduce(add, ...)` over the per-column null-indicator expressions,
evaluated on one row, for the non-empty column list `c :: cs`:
`functools.reduce` folds `add` starting from the first element. -/
def reduceAddInd (cols : List String) (row : List Cell) (c : String)
    (cs : List String) : Int :=
  (cs.map (indicator cols row)).foldl (fun acc i => acc + i) (indicator cols row c)

/-- A joined row after the two `withColumn` steps of src/DFCV.py lines
108-111 added `leftNulls` and `rightNulls`. -/
structure MergedRow where
  keyVal : Int
  leftRow : List Cell
  rightRow : List Cell
  leftNulls : Int
  rightNulls : Int
deriving Repr, DecidableEq

/-- Apply the two `withColumn` steps to a joined row: `leftNulls` sums the
null indicators of the divergent columns `c :: cs` on the `before` side,
`rightNulls` the same on the `after` side. -/
def addNulls (bcols acols : List String) (c : String) (cs : List String)
    (j : JoinedRow) : MergedRow :=
  ⟨j.keyVal, j.leftRow, j.rightRow,
   reduceAddInd bcols j.leftRow c cs,
   reduceAddInd acols j.rightRow c cs⟩

/-- One row of `bad_row_column_comparison`, in the column order of the
`select` at src/DFCV.py lines 113-117: primary key, the divergent columns
from the left side, the divergent columns from the right side, `leftNulls`,
`rightNulls`. -/
structure BadRow where
  pkVal : Int
  leftVals : List Cell
  rightVals : List Cell
  leftNulls : Int
  rightNulls : Int
deriving Repr, DecidableEq

/-- Project a merged row kept by the `where` filter to a `BadRow`
(the `select` of src/DFCV.py lines 113-117). -/
def projectBad (bcols acols : List String) (drc : List String)
    (m : MergedRow) : BadRow :=
  ⟨m.keyVal,
   drc.map (fun col => (getCell bcols m.leftRow col).getD none),
   drc.map (fun col => (getCell acols m.rightRow col).getD none),
   m.leftNulls, m.rightNulls⟩

/-- Lines 107-117 of src/DFCV.py for a non-empty divergent-column list
`c :: cs`: join, add the two null-count columns, keep the rows where they
differ, project. -/
def buildBad (before after : DataFrame) (pk c : String) (cs : List String) :
    List BadRow :=
  (((innerJoin before after pk).map (addNulls before.cols after.cols c cs)).filter
      (fun m => m.leftNulls != m.rightNulls)).map
    (projectBad before.cols after.cols (c :: cs))

/-- The attributes of a fully constructed `DataframeConversionValidator`
instance (src/DFCV.py lines 72-79). -/
structure Validator where
  before_df : DataFrame
  after_df : DataFrame
  nulls_before_df : List (String × Nat)
  nulls_after_df : List (String × Nat)
  differing_columns : List ColumnDifference
  column_names : List String
  primary_key_column : String
  bad_row_column_comparison : List BadRow
deriving Repr, DecidableEq

/-- Embeds `__init__` (src/DFCV.py lines 81-117), without the summary side
effect: record the canonical columns, check the primary key, collect both
null-count dictionaries, compute the delta list (a missing key in the
`after` dictionary raises `KeyError`), join on the primary key (the engine
raises `AnalysisException` when the `after` side lacks the key column),
then build `leftNulls`/`rightNulls` — where `reduce(add, ...)` over an empty
divergent-column list raises `TypeError` — and keep exactly the rows whose
two null counts differ. -/
def mkValidator (_before_df _after_df : DataFrame) (_primary_key_column : String) :
    Except DFCVError Validator :=
  let column_names := _before_df.cols
  if _primary_key_column ∈ column_names then
    let nulls_before_df := count_nulls _before_df
    let nulls_after_df := count_nulls _after_df
    match computeDeltas nulls_after_df nulls_before_df column_names with
    | Except.error e => Except.error e
    | Except.ok deltas =>
      let differing_columns := deltas.filter (fun p => p.difference != 0)
      if _primary_key_column ∈ _after_df.cols then
        match differing_columns.map (fun p => p.column_name) with
        | [] => Except.error DFCVError.typeError
        | c :: cs =>
          Except.ok
            ⟨_before_df, _after_df, nulls_before_df, nulls_after_df,
             differing_columns, column_names, _primary_key_column,
             buildBad _before_df _after_df _primary_key_column c cs⟩
      else Except.error DFCVError.analysisError
  else Except.error DFCVError.missingKey

/-- Embeds `different_row_columns` (src/DFCV.py line 143). -/
def Validator.different_row_columns (v : Validator) : List String :=
  v.differing_columns.map (fun p => p.column_name)

/-- Embeds `bad_row_count` (src/DFCV.py line 149): `DataFrame.count()` of
`bad_row_column_comparison`. -/
def Validator.bad_row_count (v : Validator) : Nat :=
  v.bad_row_column_comparison.length

/-- Embeds `bad_column_count` (src/DFCV.py line 155). -/
def Validator.bad_column_count (v : Validator) : Nat :=
  v.different_row_columns.length

/-- Embeds `_get_pks_of_bad_rows` (src/DFCV.py line 188): the projection of
`bad_row_column_comparison` to the primary-key column, collected to a local
list.  (Lean identifiers cannot begin with an underscore.) -/
def Validator.get_pks_of_bad_rows (v : Validator) : List Int :=
  v.bad_row_column_comparison.map (fun b => b.pkVal)

/-- Embeds `F.col(pk).isin(pks)` as a row predicate: a null or unresolvable
key is never a member (SQL `IN` with a null operand is not true). -/
def isinPk (cols : List String) (pk : String) (pks : List Int)
    (row : List Cell) : Bool :=
  match pkOf cols row pk with
  | some x => decide (x ∈ pks)
  | none => false

/-- Embeds `DataFrame.select`: project every row to the listed columns, in
order. -/
def selectCols (df : DataFrame) (cs : List String) : DataFrame :=
  ⟨cs, df.rows.map (fun r => cs.map (fun c => (getCell df.cols r c).getD none))⟩

/-- Embeds `_get_dataframe_by_pk` (src/DFCV.py lines 171-181): filter `df` to
the rows whose primary-key value is in `pks`; unless `full_row`, project to
the key column followed by the divergent columns. -/
def Validator.get_dataframe_by_pk (v : Validator) (df : DataFrame)
    (pks : List Int) (full_row : Bool) : DataFrame :=
  if full_row then
    ⟨df.cols, df.rows.filter (isinPk df.cols v.primary_key_column pks)⟩
  else
    selectCols ⟨df.cols, df.rows.filter (isinPk df.cols v.primary_key_column pks)⟩
      (v.primary_key_column :: v.different_row_columns)

/-- Embeds `original_problem_rows` (src/DFCV.py line 162). -/
def Validator.original_problem_rows (v : Validator) (full_row : Bool) : DataFrame :=
  v.get_dataframe_by_pk v.before_df v.get_pks_of_bad_rows full_row

/-- Embeds `converted_problem_rows` (src/DFCV.py line 169). -/
def Validator.converted_problem_rows (v : Validator) (full_row : Bool) : DataFrame :=
  v.get_dataframe_by_pk v.after_df v.get_pks_of_bad_rows full_row

/-- A single-quote character, as Python `repr` emits around a plain string. -/
def pyQuote : String := String.singleton (Char.ofNat 39)

/-- Python `repr` of a string literal, for strings needing no escapes (column
names in this comparator): the text between single quotes. -/
def pyReprStr (s : String) : String := pyQuote ++ s ++ pyQuote

/-- Python `repr` of a list of such strings: the comma-separated quoted items
between square brackets. -/
def pyReprStrList (l : List String) : String :=
  "[" ++ String.intercalate ", " (l.map pyReprStr) ++ "]"

/-- The `column_summary` local of `summary` (src/DFCV.py line 127):
`repr` of the strings `"{column} ({difference})"` over `differing_columns`. -/
def Validator.column_summary (v : Validator) : String :=
  pyReprStrList (v.differing_columns.map
    (fun p => p.column_name ++ " (" ++ toString p.difference ++ ")"))

/-- Embeds `summary` (src/DFCV.py lines 121-137): the exact text printed to
standard output, including the trailing newline appended by `print`. -/
def Validator.summary (v : Validator) : String :=
  "---------------\n" ++
  "Original Shape:\n" ++
  "    rows    - " ++ toString v.before_df.rows.length ++ "\n" ++
  "    columns - " ++ toString v.before_df.cols.length ++ "\n" ++
  "Problem Shape:\n" ++
  "    rows    - " ++ toString v.bad_row_count ++ "\n" ++
  "    columns - " ++ toString v.bad_column_count ++ "\n" ++
  "Details:\n" ++
  "    " ++ v.column_summary ++ "\n" ++
  "---------------\n"

/-- Embeds the whole of `__init__` including its side effect (src/DFCV.py
lines 81-119): the constructed instance paired with the text the constructor
prints to standard output — the summary unless `quiet`, nothing otherwise. -/
def DataframeConversionValidator (_before_df _after_df : DataFrame)
    (_primary_key_column : String) (quiet : Bool) :
    Except DFCVError (Validator × String) :=
  match mkValidator _before_df _after_df _primary_key_column with
  | Except.error e => Except.error e
  | Except.ok v => Except.ok (v, if quiet then "" else v.summary)

/-! Specification-side definitions, written from the words of the spec, to be
compared with the embedding above. -/

/-- Modelled from the spec (§4 steps 4-5): inner-join `before` and `after` on
the primary key; for each joined row count the nulls among the divergent
columns on each side; keep exactly the rows where the two counts differ and
project to key, the divergent columns of both sides, and the two counts. -/
def specBadRowComparison (before after : DataFrame) (pk : String)
    (divCols : List String) : List BadRow :=
  (innerJoin before after pk).filterMap (fun j =>
    if divCols.countP (fun c => isNullAt before.cols j.leftRow c) ≠
        divCols.countP (fun c => isNullAt after.cols j.rightRow c) then
      some ⟨j.keyVal,
            divCols.map (fun c => (getCell before.cols j.leftRow c).getD none),
            divCols.map (fun c => (getCell after.cols j.rightRow c).getD none),
            (divCols.countP (fun c => isNullAt before.cols j.leftRow c) : Int),
            (divCols.countP (fun c => isNullAt after.cols j.rightRow c) : Int)⟩
    else none)

/-- Modelled from the spec (§3, §4 step 3): the canonical delta list — every
column of `before` paired with `null_count_after - null_count_before`,
restricted to the nonzero deltas, in canonical column order. -/
def specDeltaList (before after : DataFrame) : List ColumnDifference :=
  (before.cols.map
    (fun c => ColumnDifference.mk c ((nullCount after c : Int) - (nullCount before c : Int)))).filter
    (fun p => p.difference != 0)

/-- Modelled from the spec (§6): the fixed summary layout, assembled from the
four shape numbers and the per-column detail strings. -/
def specSummaryLayout (beforeRows beforeCols badRows badCols : Nat)
    (details : List String) : String :=
  "---------------\n" ++
  "Original Shape:\n" ++
  "    rows    - " ++ toString beforeRows ++ "\n" ++
  "    columns - " ++ toString beforeCols ++ "\n" ++
  "Problem Shape:\n" ++
  "    rows    - " ++ toString badRows ++ "\n" ++
  "    columns - " ++ toString badCols ++ "\n" ++
  "Details:\n" ++
  "    " ++ pyReprStrList details ++ "\n" ++
  "---------------\n"

/-- Decidable equality on `Except`, so that constructions can be evaluated on
concrete inputs by `decide`. -/
instance {ε α : Type} [DecidableEq ε] [DecidableEq α] : DecidableEq (Except ε α) :=
  fun x y =>
  match x, y with
  | Except.ok u, Except.ok w =>
    match decEq u w with
    | isTrue h => isTrue (congrArg Except.ok h)
    | isFalse h => isFalse (fun hc => h (Except.ok.inj hc))
  | Except.error u, Except.error w =>
    match decEq u w with
    | isTrue h => isTrue (congrArg Except.error h)
    | isFalse h => isFalse (fun hc => h (Except.error.inj hc))
  | Except.ok _, Except.error _ => isFalse (fun hc => Except.noConfusion hc)
  | Except.error _, Except.ok _ => isFalse (fun hc => Except.noConfusion hc)

/-! Concrete example inputs used by the witnesses and counterexamples. -/

/-- Example `before` dataframe: two rows keyed 1 and 2, column `ts` non-null. -/
def bEx : DataFrame := ⟨["pk", "ts"], [[some 1, some 10], [some 2, some 20]]⟩

/-- Example `after` dataframe: same keys, `ts` turned null in the row keyed 1. -/
def aEx : DataFrame := ⟨["pk", "ts"], [[some 1, none], [some 2, some 20]]⟩

/-- The validator `mkValidator bEx aEx "pk"` constructs. -/
def vEx : Validator :=
  ⟨bEx, aEx, [("pk", 0), ("ts", 0)], [("pk", 0), ("ts", 1)],
   [⟨"ts", 1⟩], ["pk", "ts"], "pk",
   [⟨1, [some 10], [none], 0, 1⟩]⟩

/-- A `before` dataframe with the primary-key value 1 duplicated. -/
def bDup : DataFrame := ⟨["pk", "v"], [[some 1, some 5], [some 1, some 6]]⟩

/-- An `after` dataframe with the primary-key value 1 duplicated and `v` null. -/
def aDup : DataFrame := ⟨["pk", "v"], [[some 1, none], [some 1, none]]⟩

/-- The validator `mkValidator bDup aDup "pk"` constructs: the join
cross-multiplies the duplicated key, giving four bad rows for one key. -/
def vDup : Validator :=
  ⟨bDup, aDup, [("pk", 0), ("v", 0)], [("pk", 0), ("v", 2)],
   [⟨"v", 2⟩], ["pk", "v"], "pk",
   [⟨1, [some 5], [none], 0, 1⟩, ⟨1, [some 5], [none], 0, 1⟩,
    ⟨1, [some 6], [none], 0, 1⟩, ⟨1, [some 6], [none], 0, 1⟩]⟩

/-- A `before` dataframe whose column `ts` is absent from `aNarrow`. -/
def bWide : DataFrame := ⟨["pk", "ts"], [[some 1, some 1]]⟩

/-- An `after` dataframe lacking the `ts` column of `bWide`. -/
def aNarrow : DataFrame := ⟨["pk"], [[some 1]]⟩

/-- A dataframe compared against itself: no column gains nulls. -/
def bSame : DataFrame := ⟨["pk"], [[some 1]]⟩

/-! Helper lemmas about the embedded operations. -/

theorem lookup_map_self {β : Type} (f : String → β) (l : List String) (c : String) :
    (l.map (fun x => (x, f x))).lookup c = if c ∈ l then some (f c) else none := by
  induction l with
  | nil => simp
  | cons a l ih =>
    by_cases hc : c = a
    · subst hc
      simp [List.lookup]
    · have hb : (c == a) = false := by simp [hc]
      simp [List.lookup, hb, ih, hc]

theorem lookup_count_nulls (df : DataFrame) (c : String) :
    (count_nulls df).lookup c = if c ∈ df.cols then some (nullCount df c) else none := by
  unfold count_nulls
  exact lookup_map_self (nullCount df) df.cols c

theorem computeDeltas_ok (b a : DataFrame) (cols : List String)
    (h : ∀ c ∈ cols, c ∈ b.cols ∧ c ∈ a.cols) :
    computeDeltas (count_nulls a) (count_nulls b) cols =
      Except.ok (cols.map
        (fun c => ⟨c, (nullCount a c : Int) - (nullCount b c : Int)⟩)) := by
  induction cols with
  | nil => rfl
  | cons c rest ih =>
    have hc := h c (List.mem_cons_self c rest)
    have hrest : ∀ x ∈ rest, x ∈ b.cols ∧ x ∈ a.cols :=
      fun x hx => h x (List.mem_cons_of_mem c hx)
    unfold computeDeltas
    rw [lookup_count_nulls, lookup_count_nulls, if_pos hc.2, if_pos hc.1, ih hrest]
    simp

theorem computeDeltas_lookup_of_ok (na nb : List (String × Nat)) (cols : List String)
    (ds : List ColumnDifference) (h : computeDeltas na nb cols = Except.ok ds) :
    ∀ c ∈ cols, (na.lookup c).isSome ∧ (nb.lookup c).isSome := by
  induction cols generalizing ds with
  | nil => intro c hc; cases hc
  | cons c0 rest ih =>
    intro c hc
    unfold computeDeltas at h
    cases hna : na.lookup c0 with
    | none => rw [hna] at h; cases h
    | some x =>
      cases hnb : nb.lookup c0 with
      | none => rw [hna, hnb] at h; cases h
      | some y =>
        rw [hna, hnb] at h
        cases hrec : computeDeltas na nb rest with
        | error e => rw [hrec] at h; cases h
        | ok ds2 =>
          rcases List.mem_cons.mp hc with hc0 | hcr
          · subst hc0; exact ⟨by simp [hna], by simp [hnb]⟩
          · exact ih ds2 hrec c hcr

theorem computeDeltas_err (na nb : List (String × Nat)) (cols : List String)
    (c : String) (hc : c ∈ cols) (hna : na.lookup c = none) :
    computeDeltas na nb cols = Except.error DFCVError.keyError := by
  induction cols with
  | nil => cases hc
  | cons c0 rest ih =>
    unfold computeDeltas
    rcases List.mem_cons.mp hc with hc0 | hcr
    · subst hc0
      rw [hna]
    · cases h0 : na.lookup c0 with
      | none => rfl
      | some x =>
        cases h1 : nb.lookup c0 with
        | none => rfl
        | some y =>
          rw [ih hcr]

theorem computeDeltas_error_eq (na nb : List (String × Nat)) (cols : List String)
    (e : DFCVError) (h : computeDeltas na nb cols = Except.error e) :
    e = DFCVError.keyError := by
  induction cols generalizing e with
  | nil => cases h
  | cons c0 rest ih =>
    unfold computeDeltas at h
    cases hna : na.lookup c0 with
    | none => rw [hna] at h; cases h; rfl
    | some x =>
      cases hnb : nb.lookup c0 with
      | none => rw [hna, hnb] at h; cases h; rfl
      | some y =>
        rw [hna, hnb] at h
        cases hrec : computeDeltas na nb rest with
        | error e2 =>
          rw [hrec] at h
          cases h
          exact ih _ hrec
        | ok ds2 => rw [hrec] at h; cases h

theorem mkValidator_ok_fields (b a : DataFrame) (pk : String) (v : Validator)
    (h : mkValidator b a pk = Except.ok v) :
    v.before_df = b ∧ v.after_df = a ∧
    v.nulls_before_df = count_nulls b ∧ v.nulls_after_df = count_nulls a ∧
    v.column_names = b.cols ∧ v.primary_key_column = pk ∧
    pk ∈ b.cols ∧ pk ∈ a.cols ∧ (∀ c ∈ b.cols, c ∈ a.cols) ∧
    v.differing_columns = specDeltaList b a ∧
    ∃ c cs, v.different_row_columns = c :: cs ∧
      v.bad_row_column_comparison = buildBad b a pk c cs := by
  simp only [mkValidator] at h
  split at h
  case isTrue hpk =>
    split at h
    case h_1 e heq => cases h
    case h_2 deltas heq =>
      have hsub : ∀ c ∈ b.cols, c ∈ a.cols := by
        intro c hc
        have hl := (computeDeltas_lookup_of_ok _ _ _ _ heq c hc).1
        rw [lookup_count_nulls] at hl
        by_contra hcn
        rw [if_neg hcn] at hl
        cases hl
      have hdeltas : deltas = b.cols.map
          (fun c => ⟨c, (nullCount a c : Int) - (nullCount b c : Int)⟩) := by
        have := computeDeltas_ok b a b.cols (fun c hc => ⟨hc, hsub c hc⟩)
        rw [heq] at this
        exact Except.ok.inj this
      split at h
      case isTrue hpka =>
        split at h
        case h_1 hnil => cases h
        case h_2 c cs hcons =>
          obtain rfl := Except.ok.inj h
          refine ⟨rfl, rfl, rfl, rfl, rfl, rfl, hpk, hpka, hsub, ?_, c, cs, ?_, rfl⟩
          · show deltas.filter (fun p => p.difference != 0) = specDeltaList b a
            rw [hdeltas]; rfl
          · exact hcons
      case isFalse hpka => cases h
  case isFalse hpk => cases h

theorem foldl_add_indicator (cols : List String) (row : List Cell)
    (cs : List String) (i : Int) :
    (cs.map (indicator cols row)).foldl (fun acc x => acc + x) i =
      i + (cs.countP (fun x => isNullAt cols row x) : Int) := by
  induction cs generalizing i with
  | nil => simp
  | cons x xs ih =>
    rw [List.map_cons, List.foldl_cons, ih, List.countP_cons]
    unfold indicator
    by_cases hx : isNullAt cols row x
    · simp [hx]; ring
    · simp [hx]

theorem reduceAddInd_eq_countP (cols : List String) (row : List Cell)
    (c : String) (cs : List String) :
    reduceAddInd cols row c cs =
      (((c :: cs).countP (fun x => isNullAt cols row x) : Nat) : Int) := by
  unfold reduceAddInd
  rw [foldl_add_indicator, List.countP_cons]
  unfold indicator
  by_cases hc : isNullAt cols row c
  · simp [hc]; ring
  · simp [hc]

theorem filter_map_eq_filterMap {α β γ : Type} (f : α → β) (p : β → Bool)
    (g : β → γ) (l : List α) :
    ((l.map f).filter p).map g =
      l.filterMap (fun x => if p (f x) then some (g (f x)) else none) := by
  induction l with
  | nil => rfl
  | cons x xs ih =>
    rw [List.map_cons, List.filterMap_cons]
    by_cases hx : p (f x)
    · rw [List.filter_cons_of_pos hx, List.map_cons, ih, if_pos hx]
    · rw [List.filter_cons_of_neg hx, ih, if_neg hx]

theorem buildBad_eq_spec (b a : DataFrame) (pk c : String) (cs : List String) :
    buildBad b a pk c cs = specBadRowComparison b a pk (c :: cs) := by
  unfold buildBad specBadRowComparison
  rw [filter_map_eq_filterMap]
  apply List.filterMap_congr
  intro j _
  simp only [addNulls, projectBad, reduceAddInd_eq_countP]
  by_cases hne : (c :: cs).countP (fun x => isNullAt b.cols j.leftRow x) =
      (c :: cs).countP (fun x => isNullAt a.cols j.rightRow x)
  · rw [hne]
    simp
  · have hbool : ((((c :: cs).countP (fun x => isNullAt b.cols j.leftRow x) : Nat) : Int) !=
        (((c :: cs).countP (fun x => isNullAt a.cols j.rightRow x) : Nat) : Int)) = true := by
      simp [bne_iff_ne]
      exact_mod_cast hne
    rw [if_pos hbool, if_pos hne]

theorem joinRows_origin (bcols acols : List String) (pk : String)
    (arows brows : List (List Cell)) (j : JoinedRow)
    (h : j ∈ joinRows bcols acols pk arows brows) :
    (∃ r1 ∈ brows, pkOf bcols r1 pk = some j.keyVal) ∧
    (∃ r2 ∈ arows, pkOf acols r2 pk = some j.keyVal) := by
  induction brows with
  | nil => cases h
  | cons r1 rest ih =>
    unfold joinRows at h
    rcases List.mem_append.mp h with hseg | hrest
    · cases hp : pkOf bcols r1 pk with
      | none => rw [hp] at hseg; cases hseg
      | some x =>
        rw [hp] at hseg
        rcases List.mem_map.mp hseg with ⟨r2, hr2, hj⟩
        rcases List.mem_filter.mp hr2 with ⟨hr2a, hr2pk⟩
        subst hj
        exact ⟨⟨r1, List.mem_cons_self r1 rest, hp⟩,
               ⟨r2, hr2a, of_decide_eq_true hr2pk⟩⟩
    · rcases ih hrest with ⟨⟨ra, hra, hpa⟩, hb2⟩
      exact ⟨⟨ra, List.mem_cons_of_mem r1 hra, hpa⟩, hb2⟩

theorem joinRows_countP_key (bcols acols : List String) (pk : String)
    (arows brows : List (List Cell)) (x : Int) :
    (joinRows bcols acols pk arows brows).countP (fun j => decide (j.keyVal = x)) =
      brows.countP (fun r => decide (pkOf bcols r pk = some x)) *
      arows.countP (fun r => decide (pkOf acols r pk = some x)) := by
  induction brows with
  | nil => simp [joinRows]
  | cons r1 rest ih =>
    unfold joinRows
    rw [List.countP_append, ih, List.countP_cons]
    cases hp : pkOf bcols r1 pk with
    | none =>
      have : (decide (pkOf bcols r1 pk = some x)) = false := by simp [hp]
      simp [this]
    | some y =>
      rw [List.countP_map]
      by_cases hyx : y = x
      · subst hyx
        have h1 : ((fun j => decide (JoinedRow.keyVal j = y)) ∘
            (fun r2 => (⟨y, r1, r2⟩ : JoinedRow))) = fun _ => true := by
          funext r2; simp
        rw [h1, List.countP_true, ← List.countP_eq_length_filter]
        have hif : (if decide ((some y : Option Int) = some y) = true then 1 else 0) = 1 := by
          simp
        rw [hif]
        ring
      · have h1 : ((fun j => decide (JoinedRow.keyVal j = x)) ∘
            (fun r2 => (⟨y, r1, r2⟩ : JoinedRow))) = fun _ => false := by
          funext r2; simp [hyx]
        rw [h1, List.countP_false]
        have hif : (if decide ((some y : Option Int) = some x) = true then 1 else 0) = 0 := by
          simp [hyx]
        rw [hif]
        simp [Function.const]

theorem countP_key_eq_count_filterMap (cols : List String) (pk : String)
    (rows : List (List Cell)) (x : Int) :
    rows.countP (fun r => decide (pkOf cols r pk = some x)) =
      (rows.filterMap (fun r => pkOf cols r pk)).count x := by
  rw [List.count_eq_countP, List.countP_filterMap]
  apply List.countP_congr
  intro r _
  cases hp : pkOf cols r pk with
  | none => simp [hp]
  | some y => simp [hp]

theorem joinKeys_nodup (b a : DataFrame) (pk : String)
    (hb : (b.rows.filterMap (fun r => pkOf b.cols r pk)).Nodup)
    (ha : (a.rows.filterMap (fun r => pkOf a.cols r pk)).Nodup) :
    ((innerJoin b a pk).map (fun j => j.keyVal)).Nodup := by
  rw [List.nodup_iff_count_le_one]
  intro x
  rw [List.count_eq_countP, List.countP_map]
  have hcomp : ((fun j : Int => j == x) ∘ fun j : JoinedRow => j.keyVal) =
      fun j : JoinedRow => decide (j.keyVal = x) := by
    funext j; exact Bool.beq_eq_decide_eq _ _
  rw [hcomp]
  unfold innerJoin
  rw [joinRows_countP_key]
  have h1 : b.rows.countP (fun r => decide (pkOf b.cols r pk = some x)) ≤ 1 := by
    rw [countP_key_eq_count_filterMap]
    exact List.nodup_iff_count_le_one.mp hb x
  have h2 : a.rows.countP (fun r => decide (pkOf a.cols r pk = some x)) ≤ 1 := by
    rw [countP_key_eq_count_filterMap]
    exact List.nodup_iff_count_le_one.mp ha x
  calc b.rows.countP (fun r => decide (pkOf b.cols r pk = some x)) *
        a.rows.countP (fun r => decide (pkOf a.cols r pk = some x)) ≤ 1 * 1 :=
        Nat.mul_le_mul h1 h2
    _ = 1 := by norm_num

theorem badPks_sublist_joinKeys (b a : DataFrame) (pk c : String) (cs : List String) :
    List.Sublist ((buildBad b a pk c cs).map (fun r => r.pkVal))
      ((innerJoin b a pk).map (fun j => j.keyVal)) := by
  unfold buildBad
  rw [List.map_map]
  have h3 : (innerJoin b a pk).map (fun j => j.keyVal) =
      ((innerJoin b a pk).map (addNulls b.cols a.cols c cs)).map
        (fun m : MergedRow => m.keyVal) := by
    rw [List.map_map]; rfl
  rw [h3]
  exact List.Sublist.map _ (List.filter_sublist _)

theorem length_filterMap_of_isSome {α β : Type} (f : α → Option β) (l : List α)
    (h : ∀ x ∈ l, (f x).isSome) : (l.filterMap f).length = l.length := by
  induction l with
  | nil => rfl
  | cons x xs ih =>
    rw [List.filterMap_cons]
    cases hx : f x with
    | none => exact absurd (h x (List.mem_cons_self x xs)) (by simp [hx])
    | some y =>
      simp only [List.length_cons]
      rw [ih (fun z hz => h z (List.mem_cons_of_mem x hz))]

theorem mkValidator_missingKey (b a : DataFrame) (pk : String) (hpk : pk ∉ b.cols) :
    mkValidator b a pk = Except.error DFCVError.missingKey := by
  simp only [mkValidator]
  rw [if_neg hpk]

theorem mkValidator_not_missingKey (b a : DataFrame) (pk : String)
    (hpk : pk ∈ b.cols) :
    mkValidator b a pk ≠ Except.error DFCVError.missingKey := by
  intro h
  simp only [mkValidator] at h
  split at h
  case isTrue hc =>
    split at h
    case h_1 e heq =>
      have he := computeDeltas_error_eq _ _ _ _ heq
      cases h
      cases he
    case h_2 deltas heq =>
      split at h
      case isTrue =>
        split at h
        case h_1 => cases h
        case h_2 => cases h
      case isFalse => cases h
  case isFalse hc => exact hc hpk

theorem mkValidator_keyError (b a : DataFrame) (pk : String) (hpk : pk ∈ b.cols)
    (c : String) (hc : c ∈ b.cols) (hcn : c ∉ a.cols) :
    mkValidator b a pk = Except.error DFCVError.keyError := by
  simp only [mkValidator]
  rw [if_pos hpk]
  have hcd := computeDeltas_err (count_nulls a) (count_nulls b) b.cols c hc
    (by rw [lookup_count_nulls, if_neg hcn])
  rw [hcd]

/-- Relates the boolean delta test of line 102 to inequality of null counts. -/
theorem delta_ne_zero_iff (m n : Nat) :
    (((m : Int) - (n : Int)) != 0) = true ↔ m ≠ n := by
  rw [bne_iff_ne, ne_eq, sub_eq_zero, Nat.cast_inj]

theorem filter_isin_length (cols : List String) (pk : String)
    (rows : List (List Cell)) (pks : List Int)
    (hnd : (rows.filterMap (fun r => pkOf cols r pk)).Nodup)
    (hpks : pks.Nodup)
    (horig : ∀ x ∈ pks, ∃ r ∈ rows, pkOf cols r pk = some x) :
    (rows.filter (isinPk cols pk pks)).length = pks.length := by
  have hsome : ∀ r ∈ rows.filter (isinPk cols pk pks),
      (pkOf cols r pk).isSome := by
    intro r hr
    have hin := (List.mem_filter.mp hr).2
    unfold isinPk at hin
    cases hp : pkOf cols r pk with
    | none => rw [hp] at hin; cases hin
    | some y => simp [hp]
  have hlen : ((rows.filter (isinPk cols pk pks)).filterMap
      (fun r => pkOf cols r pk)).length =
      (rows.filter (isinPk cols pk pks)).length :=
    length_filterMap_of_isSome _ _ hsome
  have hfnd : ((rows.filter (isinPk cols pk pks)).filterMap
      (fun r => pkOf cols r pk)).Nodup :=
    List.Nodup.sublist (List.Sublist.filterMap _ (List.filter_sublist rows)) hnd
  have hiff : ∀ x, x ∈ (rows.filter (isinPk cols pk pks)).filterMap
      (fun r => pkOf cols r pk) ↔ x ∈ pks := by
    intro x
    constructor
    · intro hx
      rcases List.mem_filterMap.mp hx with ⟨r, hrF, hpr⟩
      have hin := (List.mem_filter.mp hrF).2
      unfold isinPk at hin
      rw [hpr] at hin
      exact of_decide_eq_true hin
    · intro hx
      rcases horig x hx with ⟨r, hr, hpr⟩
      apply List.mem_filterMap.mpr
      refine ⟨r, ?_, hpr⟩
      apply List.mem_filter.mpr
      refine ⟨hr, ?_⟩
      unfold isinPk
      rw [hpr]
      exact decide_eq_true hx
  have hfs : ((rows.filter (isinPk cols pk pks)).filterMap
      (fun r => pkOf cols r pk)).toFinset = pks.toFinset := by
    apply Finset.ext
    intro y
    rw [List.mem_toFinset, List.mem_toFinset]
    exact hiff y
  calc (rows.filter (isinPk cols pk pks)).length
      = ((rows.filter (isinPk cols pk pks)).filterMap
          (fun r => pkOf cols r pk)).length := hlen.symm
    _ = ((rows.filter (isinPk cols pk pks)).filterMap
          (fun r => pkOf cols r pk)).toFinset.card :=
        (List.toFinset_card_of_nodup hfnd).symm
    _ = pks.toFinset.card := by rw [hfs]
    _ = pks.length := List.toFinset_card_of_nodup hpks

theorem buildBad_pk_origin (b a : DataFrame) (pk c : String) (cs : List String)
    (x : Int) (hx : x ∈ (buildBad b a pk c cs).map (fun r => r.pkVal)) :
    (∃ r1 ∈ b.rows, pkOf b.cols r1 pk = some x) ∧
    (∃ r2 ∈ a.rows, pkOf a.cols r2 pk = some x) := by
  rcases List.mem_map.mp hx with ⟨br, hbr, hbrx⟩
  unfold buildBad at hbr
  rcases List.mem_map.mp hbr with ⟨m, hm, hmbr⟩
  have hmm := (List.mem_filter.mp hm).1
  rcases List.mem_map.mp hmm with ⟨j, hj, hjm⟩
  have hkey : j.keyVal = x := by
    subst hmbr
    subst hjm
    exact hbrx
  have horig := joinRows_origin b.cols a.cols pk a.rows b.rows j hj
  rw [hkey] at horig
  exact horig

theorem specBad_length (b a : DataFrame) (pk : String) (divCols : List String) :
    (specBadRowComparison b a pk divCols).length =
      (innerJoin b a pk).countP (fun j =>
        decide (divCols.countP (fun c => isNullAt b.cols j.leftRow c) ≠
                divCols.countP (fun c => isNullAt a.cols j.rightRow c))) := by
  unfold specBadRowComparison
  generalize innerJoin b a pk = l
  induction l with
  | nil => rfl
  | cons j js ih =>
    rw [List.countP_cons]
    by_cases hj : divCols.countP (fun c => isNullAt b.cols j.leftRow c) =
        divCols.countP (fun c => isNullAt a.cols j.rightRow c)
    · rw [List.filterMap_cons_none (by rw [if_neg (by simp [hj])]), ih]
      simp [hj]
    · rw [List.filterMap_cons_some (by rw [if_pos hj]), List.length_cons, ih]
      simp [hj]

/-! The claims. -/

/-- C1: at construction the comparator inner-joins `before` and `after` on
`primary_key_column`; for each joined row it counts the nulls among the
divergent columns on the `before` side (`leftNulls`) and on the `after` side
(`rightNulls`); it keeps exactly the joined rows where the two counts differ
and projects them to the primary key, the divergent columns of both sides,
`leftNulls` and `rightNulls` — this is `bad_row_column_comparison`. -/
theorem claim_C1 (b a : DataFrame) (pk : String) (v : Validator)
    (h : mkValidator b a pk = Except.ok v) :
    v.bad_row_column_comparison =
      specBadRowComparison b a pk v.different_row_columns := by
  obtain ⟨-, -, -, -, -, -, -, -, -, -, c, cs, hdrc, hbad⟩ :=
    mkValidator_ok_fields b a pk v h
  rw [hbad, hdrc, buildBad_eq_spec]

/-- Witness for C1: the construction succeeds on the concrete example and the
theorem applies. -/
theorem claim_C1_witness :
    mkValidator bEx aEx "pk" = Except.ok vEx ∧
    vEx.bad_row_column_comparison =
      specBadRowComparison bEx aEx "pk" vEx.different_row_columns :=
  ⟨by decide, claim_C1 bEx aEx "pk" vEx (by decide)⟩

/-- C2: the delta of every canonical column is
`nulls_after[col] - nulls_before[col]`, each null count computed
independently per dataset; the divergent-column list holds exactly the
canonical columns with nonzero delta, in canonical order, each name at most
once; columns outside the list have equal null counts. -/
theorem claim_C2 (b a : DataFrame) (pk : String) (v : Validator)
    (hnd : b.cols.Nodup) (h : mkValidator b a pk = Except.ok v) :
    v.differing_columns =
      (b.cols.map (fun c =>
        ColumnDifference.mk c ((nullCount a c : Int) - (nullCount b c : Int)))).filter
        (fun p => p.difference != 0) ∧
    (∀ c, c ∈ v.different_row_columns ↔
      c ∈ b.cols ∧ nullCount a c ≠ nullCount b c) ∧
    v.different_row_columns.Nodup ∧
    (∀ c ∈ b.cols, c ∉ v.different_row_columns →
      nullCount a c = nullCount b c) := by
  obtain ⟨-, -, -, -, -, -, -, -, -, hdc, -⟩ := mkValidator_ok_fields b a pk v h
  have hmem : ∀ c, c ∈ v.different_row_columns ↔
      c ∈ b.cols ∧ nullCount a c ≠ nullCount b c := by
    intro c
    unfold Validator.different_row_columns
    rw [hdc]
    unfold specDeltaList
    constructor
    · intro hc
      rcases List.mem_map.mp hc with ⟨p, hp, hpc⟩
      rcases List.mem_filter.mp hp with ⟨hpm, hpq⟩
      rcases List.mem_map.mp hpm with ⟨c0, hc0, hpc0⟩
      subst hpc0
      subst hpc
      exact ⟨hc0, (delta_ne_zero_iff _ _).mp hpq⟩
    · intro ⟨hcb, hcne⟩
      apply List.mem_map.mpr
      refine ⟨⟨c, (nullCount a c : Int) - (nullCount b c : Int)⟩, ?_, rfl⟩
      apply List.mem_filter.mpr
      exact ⟨List.mem_map.mpr ⟨c, hcb, rfl⟩, (delta_ne_zero_iff _ _).mpr hcne⟩
  have hsubl : List.Sublist v.different_row_columns b.cols := by
    unfold Validator.different_row_columns
    rw [hdc]
    unfold specDeltaList
    have hs : List.Sublist
        (((b.cols.map (fun c => ColumnDifference.mk c
            ((nullCount a c : Int) - (nullCount b c : Int)))).filter
          (fun p => p.difference != 0)).map
            (fun p : ColumnDifference => p.column_name))
        ((b.cols.map (fun c => ColumnDifference.mk c
            ((nullCount a c : Int) - (nullCount b c : Int)))).map
          (fun p : ColumnDifference => p.column_name)) :=
      List.Sublist.map _ (List.filter_sublist _)
    have hid : List.map ((fun p : ColumnDifference => p.column_name) ∘ fun c =>
        ColumnDifference.mk c ((nullCount a c : Int) - (nullCount b c : Int)))
        b.cols = b.cols := by
      rw [show ((fun p : ColumnDifference => p.column_name) ∘ fun c =>
        ColumnDifference.mk c ((nullCount a c : Int) - (nullCount b c : Int))) =
          id from rfl, List.map_id]
    rw [List.map_map, hid] at hs
    exact hs
  refine ⟨by rw [hdc]; rfl, hmem, List.Nodup.sublist hsubl hnd, ?_⟩
  intro c hcb hcn
  by_contra hne
  exact hcn ((hmem c).mpr ⟨hcb, hne⟩)

/-- Witness for C2 at a concrete input. -/
theorem claim_C2_witness :
    (bEx.cols.Nodup ∧ mkValidator bEx aEx "pk" = Except.ok vEx) ∧
    ("ts" ∈ vEx.different_row_columns ↔
      "ts" ∈ bEx.cols ∧ nullCount aEx "ts" ≠ nullCount bEx "ts") :=
  ⟨⟨by decide, by decide⟩,
   (claim_C2 bEx aEx "pk" vEx (by decide) (by decide)).2.1 "ts"⟩

/-- C3: construction fails with the `LookupError`-class error exactly when
`primary_key_column` is not among the columns of `before`; the failure yields no
instance (the `Except` result carries no `Validator`), and with the key
present this error is never raised. -/
theorem claim_C3 (b a : DataFrame) (pk : String) :
    (pk ∉ b.cols → mkValidator b a pk = Except.error DFCVError.missingKey) ∧
    (pk ∈ b.cols → mkValidator b a pk ≠ Except.error DFCVError.missingKey) :=
  ⟨mkValidator_missingKey b a pk, mkValidator_not_missingKey b a pk⟩

/-- Witness for C3: a missing and a present key on concrete inputs. -/
theorem claim_C3_witness :
    ("missing" ∉ bEx.cols ∧
      mkValidator bEx aEx "missing" = Except.error DFCVError.missingKey) ∧
    ("pk" ∈ bEx.cols ∧
      mkValidator bEx aEx "pk" ≠ Except.error DFCVError.missingKey) :=
  ⟨⟨by decide, (claim_C3 bEx aEx "missing").1 (by decide)⟩,
   ⟨by decide, (claim_C3 bEx aEx "pk").2 (by decide)⟩⟩

/-- C9: construction is deterministic in its inputs — two comparators built
from the same `before`/`after`/key triple agree on `bad_row_count`,
`divergent_column_names` and the bad-row comparison contents. -/
theorem claim_C9 (b a : DataFrame) (pk : String) (v1 v2 : Validator)
    (h1 : mkValidator b a pk = Except.ok v1)
    (h2 : mkValidator b a pk = Except.ok v2) :
    v1.bad_row_count = v2.bad_row_count ∧
    v1.different_row_columns = v2.different_row_columns ∧
    v1.bad_row_column_comparison = v2.bad_row_column_comparison := by
  have h := Except.ok.inj (h1.symm.trans h2)
  subst h
  exact ⟨rfl, rfl, rfl⟩

/-- Witness for C9 at a concrete input. -/
theorem claim_C9_witness :
    mkValidator bEx aEx "pk" = Except.ok vEx ∧
    (vEx.bad_row_count = vEx.bad_row_count ∧
     vEx.different_row_columns = vEx.different_row_columns ∧
     vEx.bad_row_column_comparison = vEx.bad_row_column_comparison) :=
  ⟨by decide, claim_C9 bEx aEx "pk" vEx vEx (by decide) (by decide)⟩

/-- C10: `bad_column_count()` equals the length of the list returned by
`different_row_columns()` (the implementation of `divergent_column_names`). -/
theorem claim_C10 (v : Validator) :
    v.bad_column_count = v.different_row_columns.length := rfl

/-- Counterexample for C6 as stated: with `after` lacking a column of
`before`, the failure is the local `KeyError` of the dictionary subscript
`nulls_after_df[colname]` at delta-computation time (src/DFCV.py line 102),
not an engine-raised `AnalysisException` — construction never reaches the
engine join. -/
theorem claim_C6_counterexample :
    mkValidator bWide aNarrow "pk" = Except.error DFCVError.keyError ∧
    mkValidator bWide aNarrow "pk" ≠ Except.error DFCVError.analysisError := by
  exact ⟨by decide, by decide⟩

/-- C6 (amended): if `after` lacks a column present in `before` (and the key
column exists in `before`), construction fails with the `KeyError` from the
local null-count dictionary lookup at delta-computation time; the comparator
performs no schema pre-validation and does not wrap the error — in
particular the failure is not the construction-time `MissingKeyError`. -/
theorem claim_C6_amended (b a : DataFrame) (pk c : String)
    (hpk : pk ∈ b.cols) (hc : c ∈ b.cols) (hcn : c ∉ a.cols) :
    mkValidator b a pk = Except.error DFCVError.keyError :=
  mkValidator_keyError b a pk hpk c hc hcn

/-- Witness for the amended C6 at a concrete input. -/
theorem claim_C6_witness :
    ("pk" ∈ bWide.cols ∧ "ts" ∈ bWide.cols ∧ "ts" ∉ aNarrow.cols) ∧
    mkValidator bWide aNarrow "pk" = Except.error DFCVError.keyError :=
  ⟨⟨by decide, by decide, by decide⟩,
   claim_C6_amended bWide aNarrow "pk" "ts" (by decide) (by decide) (by decide)⟩

/-- C7: when every canonical column has identical null counts in `before` and
`after` (the null-count dictionaries agree on every canonical column), the
divergent-column list is empty and `reduce(add, [])` in the
`leftNulls`/`rightNulls` step raises `TypeError`, so construction never
completes; consequently no constructed comparator ever has an empty
divergent-column list. -/
theorem claim_C7 (b a : DataFrame) (pk : String) :
    (pk ∈ b.cols →
      (∀ c ∈ b.cols, (count_nulls a).lookup c = (count_nulls b).lookup c) →
      mkValidator b a pk = Except.error DFCVError.typeError) ∧
    (∀ v : Validator, mkValidator b a pk = Except.ok v →
      v.differing_columns ≠ []) := by
  constructor
  · intro hpk heq
    have hsub : ∀ c ∈ b.cols, c ∈ a.cols := by
      intro c hc
      by_contra hcn
      have h2 := heq c hc
      rw [lookup_count_nulls, lookup_count_nulls, if_neg hcn, if_pos hc] at h2
      cases h2
    have hcnt : ∀ c ∈ b.cols, nullCount a c = nullCount b c := by
      intro c hc
      have h2 := heq c hc
      rw [lookup_count_nulls, lookup_count_nulls, if_pos (hsub c hc),
        if_pos hc] at h2
      exact Option.some.inj h2
    have hcd := computeDeltas_ok b a b.cols (fun c hc => ⟨hc, hsub c hc⟩)
    have hfil : (b.cols.map (fun c =>
        (⟨c, (nullCount a c : Int) - (nullCount b c : Int)⟩ :
          ColumnDifference))).filter (fun p => p.difference != 0) = [] := by
      rw [List.filter_eq_nil_iff]
      intro p hp
      rcases List.mem_map.mp hp with ⟨c, hc, hpc⟩
      subst hpc
      simp [hcnt c hc]
    simp [mkValidator, hpk, hsub pk hpk, hcd, hfil]
  · intro v hv hnil
    obtain ⟨-, -, -, -, -, -, -, -, -, -, c, cs, hdrc, -⟩ :=
      mkValidator_ok_fields b a pk v hv
    unfold Validator.different_row_columns at hdrc
    rw [hnil] at hdrc
    cases hdrc

/-- Witness for C7: identical datasets yield `TypeError`; a successful
construction has a non-empty divergent list. -/
theorem claim_C7_witness :
    ("pk" ∈ bSame.cols ∧
      mkValidator bSame bSame "pk" = Except.error DFCVError.typeError) ∧
    (mkValidator bEx aEx "pk" = Except.ok vEx ∧ vEx.differing_columns ≠ []) :=
  ⟨⟨by decide, (claim_C7 bSame bSame "pk").1 (by decide) (by decide)⟩,
   ⟨by decide, (claim_C7 bEx aEx "pk").2 vEx (by decide)⟩⟩

/-- C5: the inner join cross-multiplies rows sharing a primary-key value —
for every key value, the number of joined rows carrying it is the product of
its multiplicities in `before` and `after`, with no deduplication — and the
bad-row comparison counts joined rows kept by the null-count filter, so with
duplicate keys its row count reflects the product, not the number of unique
keys. -/
theorem claim_C5 (b a : DataFrame) (pk : String) (x : Int) :
    ((innerJoin b a pk).countP (fun j => decide (j.keyVal = x)) =
      b.rows.countP (fun r => decide (pkOf b.cols r pk = some x)) *
      a.rows.countP (fun r => decide (pkOf a.cols r pk = some x))) ∧
    (∀ v : Validator, mkValidator b a pk = Except.ok v →
      v.bad_row_count = (innerJoin b a pk).countP (fun j =>
        decide (v.different_row_columns.countP
            (fun c => isNullAt b.cols j.leftRow c) ≠
          v.different_row_columns.countP
            (fun c => isNullAt a.cols j.rightRow c)))) := by
  constructor
  · unfold innerJoin
    exact joinRows_countP_key b.cols a.cols pk a.rows b.rows x
  · intro v hv
    obtain ⟨-, -, -, -, -, -, -, -, -, -, c, cs, hdrc, hbad⟩ :=
      mkValidator_ok_fields b a pk v hv
    unfold Validator.bad_row_count
    rw [hbad, hdrc, buildBad_eq_spec, specBad_length]

/-- Witness for C5: with the key value 1 duplicated twice on each side, the
bad-row comparison has 2 * 2 = 4 rows for the single unique key. -/
theorem claim_C5_witness :
    (mkValidator bDup aDup "pk" = Except.ok vDup ∧
      vDup.bad_row_count = 4) ∧
    vDup.bad_row_count = (innerJoin bDup aDup "pk").countP (fun j =>
      decide (vDup.different_row_columns.countP
          (fun c => isNullAt bDup.cols j.leftRow c) ≠
        vDup.different_row_columns.countP
          (fun c => isNullAt aDup.cols j.rightRow c))) ∧
    ((innerJoin bDup aDup "pk").countP (fun j => decide (j.keyVal = 1)) =
      bDup.rows.countP (fun r => decide (pkOf bDup.cols r "pk" = some 1)) *
      aDup.rows.countP (fun r => decide (pkOf aDup.cols r "pk" = some 1))) :=
  ⟨⟨by decide, by decide⟩,
   (claim_C5 bDup aDup "pk" 1).2 vDup (by decide),
   (claim_C5 bDup aDup "pk" 1).1⟩

/-- C8: with `quiet` unset, construction prints exactly the fixed summary
layout — delimiter, `Original Shape` with the row and column counts of `before`,
`Problem Shape` with `bad_row_count` and `bad_column_count`, and a `Details`
line holding the list representation of the strings `"<name> (<delta>)"`
for the divergent columns in canonical order — and with `quiet` set it
prints nothing. -/
theorem claim_C8 (b a : DataFrame) (pk : String) (v : Validator) (out : String)
    (h : DataframeConversionValidator b a pk false = Except.ok (v, out)) :
    out = specSummaryLayout b.rows.length b.cols.length
      v.bad_row_count v.bad_column_count
      (v.differing_columns.map
        (fun p => p.column_name ++ " (" ++ toString p.difference ++ ")")) ∧
    v.differing_columns = specDeltaList b a ∧
    (∀ v2 out2, DataframeConversionValidator b a pk true = Except.ok (v2, out2) →
      out2 = "") := by
  simp only [DataframeConversionValidator] at h
  cases hmk : mkValidator b a pk with
  | error e => rw [hmk] at h; cases h
  | ok v0 =>
    rw [hmk] at h
    obtain ⟨hv, hout⟩ := Prod.mk.inj (Except.ok.inj h)
    subst hv
    have hout2 : v0.summary = out := by simpa using hout
    obtain ⟨hbdf, -, -, -, -, -, -, -, -, hdc, -⟩ :=
      mkValidator_ok_fields b a pk v0 hmk
    refine ⟨?_, hdc, ?_⟩
    · rw [← hout2]
      unfold Validator.summary specSummaryLayout Validator.column_summary
      rw [hbdf]
    · intro v2 out2 h2
      simp only [DataframeConversionValidator] at h2
      rw [hmk] at h2
      obtain ⟨-, hout3⟩ := Prod.mk.inj (Except.ok.inj h2)
      simpa using hout3.symm

/-- C4: on valid inputs — primary-key values unique within each dataset —
`original_problem_rows(full_row=False)` and
`converted_problem_rows(full_row=False)` each return exactly `bad_row_count`
rows; their columns are exactly the key column followed by the divergent
columns; and the rows are exactly those of `before` (resp. `after`) whose
key value appears in the bad-row comparison, projected to those columns. -/
theorem claim_C4 (b a : DataFrame) (pk : String) (v : Validator)
    (h : mkValidator b a pk = Except.ok v)
    (hb : (b.rows.filterMap (fun r => pkOf b.cols r pk)).Nodup)
    (ha : (a.rows.filterMap (fun r => pkOf a.cols r pk)).Nodup) :
    (v.original_problem_rows false).rows.length = v.bad_row_count ∧
    (v.converted_problem_rows false).rows.length = v.bad_row_count ∧
    (v.original_problem_rows false).cols = pk :: v.different_row_columns ∧
    (v.converted_problem_rows false).cols = pk :: v.different_row_columns ∧
    (v.original_problem_rows false).rows =
      (b.rows.filter (isinPk b.cols pk v.get_pks_of_bad_rows)).map
        (fun r => (pk :: v.different_row_columns).map
          (fun col => (getCell b.cols r col).getD none)) ∧
    (v.converted_problem_rows false).rows =
      (a.rows.filter (isinPk a.cols pk v.get_pks_of_bad_rows)).map
        (fun r => (pk :: v.different_row_columns).map
          (fun col => (getCell a.cols r col).getD none)) := by
  obtain ⟨hbdf, hadf, -, -, -, hpkc, -, -, -, -, c, cs, hdrc, hbad⟩ :=
    mkValidator_ok_fields b a pk v h
  have hpks : v.get_pks_of_bad_rows =
      (buildBad b a pk c cs).map (fun r => r.pkVal) := by
    unfold Validator.get_pks_of_bad_rows
    rw [hbad]
  have hbadnd : v.get_pks_of_bad_rows.Nodup := by
    rw [hpks]
    exact List.Nodup.sublist (badPks_sublist_joinKeys b a pk c cs)
      (joinKeys_nodup b a pk hb ha)
  have horigb : ∀ x ∈ v.get_pks_of_bad_rows,
      ∃ r ∈ b.rows, pkOf b.cols r pk = some x := by
    intro x hx
    rw [hpks] at hx
    exact (buildBad_pk_origin b a pk c cs x hx).1
  have horiga : ∀ x ∈ v.get_pks_of_bad_rows,
      ∃ r ∈ a.rows, pkOf a.cols r pk = some x := by
    intro x hx
    rw [hpks] at hx
    exact (buildBad_pk_origin b a pk c cs x hx).2
  have hlenb := filter_isin_length b.cols pk b.rows v.get_pks_of_bad_rows
    hb hbadnd horigb
  have hlena := filter_isin_length a.cols pk a.rows v.get_pks_of_bad_rows
    ha hbadnd horiga
  have hbrc : v.bad_row_count = v.get_pks_of_bad_rows.length := by
    unfold Validator.bad_row_count Validator.get_pks_of_bad_rows
    rw [List.length_map]
  have hoprR : (v.original_problem_rows false).rows =
      (b.rows.filter (isinPk b.cols pk v.get_pks_of_bad_rows)).map
        (fun r => (pk :: v.different_row_columns).map
          (fun col => (getCell b.cols r col).getD none)) := by
    unfold Validator.original_problem_rows Validator.get_dataframe_by_pk selectCols
    rw [hbdf, hpkc]
    simp
  have hoprC : (v.original_problem_rows false).cols =
      pk :: v.different_row_columns := by
    unfold Validator.original_problem_rows Validator.get_dataframe_by_pk selectCols
    rw [hpkc]
    simp
  have hcprR : (v.converted_problem_rows false).rows =
      (a.rows.filter (isinPk a.cols pk v.get_pks_of_bad_rows)).map
        (fun r => (pk :: v.different_row_columns).map
          (fun col => (getCell a.cols r col).getD none)) := by
    unfold Validator.converted_problem_rows Validator.get_dataframe_by_pk selectCols
    rw [hadf, hpkc]
    simp
  have hcprC : (v.converted_problem_rows false).cols =
      pk :: v.different_row_columns := by
    unfold Validator.converted_problem_rows Validator.get_dataframe_by_pk selectCols
    rw [hpkc]
    simp
  refine ⟨?_, ?_, hoprC, hcprC, hoprR, hcprR⟩
  · rw [hoprR, List.length_map, hlenb, hbrc]
  · rw [hcprR, List.length_map, hlena, hbrc]

/-- Witness for C4 at a concrete input with unique keys on both sides. -/
theorem claim_C4_witness :
    (mkValidator bEx aEx "pk" = Except.ok vEx ∧
     (bEx.rows.filterMap (fun r => pkOf bEx.cols r "pk")).Nodup ∧
     (aEx.rows.filterMap (fun r => pkOf aEx.cols r "pk")).Nodup) ∧
    ((vEx.original_problem_rows false).rows.length = vEx.bad_row_count ∧
     (vEx.converted_problem_rows false).rows.length = vEx.bad_row_count ∧
     (vEx.original_problem_rows false).cols =
       "pk" :: vEx.different_row_columns) :=
  ⟨⟨by decide, by decide, by decide⟩,
   ⟨(claim_C4 bEx aEx "pk" vEx (by decide) (by decide) (by decide)).1,
    (claim_C4 bEx aEx "pk" vEx (by decide) (by decide) (by decide)).2.1,
    (claim_C4 bEx aEx "pk" vEx (by decide) (by decide) (by decide)).2.2.1⟩⟩

/-- Witness for C8 at a concrete input: the emitted text is the layout
instantiated with shapes 2x2 and 1x1 and the single detail string. -/
theorem claim_C8_witness :
    DataframeConversionValidator bEx aEx "pk" false =
      Except.ok (vEx, vEx.summary) ∧
    vEx.summary = specSummaryLayout 2 2 1 1 ["ts (1)"] :=
  ⟨by decide,
   (claim_C8 bEx aEx "pk" vEx vEx.summary (by decide)).1⟩

end DFCV
